import Mathlib

/-!
Shallow embedding of `src/pool.rs` (connection pool and request routing of
the conjure tool). Pure data stands in for the external collaborators
(`Client`, the `clojure` request generators, the location parser, the editor
`Server` handle), exactly at the interface boundary the specification fixes
for them; all pool and connection logic is translated from the source.
- Mutation of `&mut self` becomes explicit state passing: each operation
  returns the new pool state together with its `Result`.
-  Client sockets are modelled by their observable write log plus boolean
  oracles saying whether the next write / clone / quit succeeds, with the
  error text each failure would carry.
-/

set_option autoImplicit false

/-- Modelled from the spec: `clojure::Lang`, the closed two-variant language
enumeration (the repository's `clojure` module is not under `src/`). -/
inductive Lang where
  | Clojure
  | ClojureScript
deriving DecidableEq, Repr

/-- Modelled from the spec: a request produced by the pure generator
`clojure::eval(code, ns, lang)`; kept as the record of its arguments so the
namespace a request uses is observable. -/
structure Request where
  code : String
  ns : String
  lang : Lang
deriving DecidableEq, Repr

/-- Modelled from the spec: `clojure::eval` request generator. -/
def clojure.eval (code ns_arg : String) (lg : Lang) : Request :=
  { code := code, ns := ns_arg, lang := lg }

/-- Modelled from the spec: `clojure::bootstrap()`, the support-code form
written once on the eval channel before its loop starts; opaque payload. -/
def clojure.bootstrap : String := "(conjure-bootstrap)"

/-- Modelled from the spec: `clojure::definition(name)`, the
definition-lookup form for `name`; opaque beyond carrying `name`. -/
def clojure.definition (name : String) : String :=
  "(conjure-definition " ++ name ++ ")"

/-- Modelled from the spec: `clojure::completions(ns, core_ns)`, the
completion-listing form; opaque beyond carrying its two namespaces. -/
def clojure.completions (ns_arg core : String) : String :=
  "(conjure-completions " ++ ns_arg ++ " " ++ core ++ ")"

/-- The error enum of `pool.rs`, extended with a constructor carrying the
text of an error surfaced by a `Client` operation (in the source all these
travel as one `failure::Error` type). -/
inductive PoolError where
  | ConnectionMissing (key : String)
  | NoMatchingConnections (path : String)
  | ClientErr (msg : String)
deriving DecidableEq, Repr

/-- Modelled from the spec: a `repl::Client` handle, observed through its
write log; the boolean fields are the environment's oracle for whether the
next `write` / `try_clone` / `quit` on this socket succeeds, and the `Err`
fields the message such a failure carries. -/
structure Client where
  writes : List Request := []
  writeOk : Bool := true
  writeErr : String := ""
  cloneOk : Bool := true
  cloneErr : String := ""
  quitOk : Bool := true
  quitErr : String := ""
deriving DecidableEq, Repr

/-- Modelled from the spec: `Client::write` appends to the socket's log when
the transport accepts the write, and fails otherwise. -/
def Client.write (c : Client) (r : Request) : Except PoolError Client :=
  if c.writeOk then .ok { c with writes := c.writes ++ [r] }
  else .error (.ClientErr c.writeErr)

/-- Modelled from the spec: `Client::try_clone` yields an independent handle
onto the same underlying session, so it is modelled as the handle itself. -/
def Client.try_clone (c : Client) : Except PoolError Client :=
  if c.cloneOk then .ok c else .error (.ClientErr c.cloneErr)

/-- Modelled from the spec: `Client::quit`, the graceful shutdown message. -/
def Client.quit (c : Client) : Except PoolError Unit :=
  if c.quitOk then .ok () else .error (.ClientErr c.quitErr)

/-- Modelled from the spec: `editor::Context` — the per-request file path
plus optional namespace override. -/
structure Context where
  path : String
  ns : Option String
deriving DecidableEq, Repr

/-- `struct Connection` of `pool.rs`: three clients against one address, the
derived namespaces, the routing pattern (`Regex` becomes its observable
match function) and the language. -/
structure Connection where
  eval : Client
  go_to_definition : Client
  completions : Client
  user_ns : String
  core_ns : String
  addr : String
  expr : String → Bool
  lang : Lang

/-- `Connection::connect`: opens the three sockets in sequence (eval,
definition, completion), any failure aborting the whole construction; the
outcomes of the three `Client::connect(addr)` calls are the environment
`opens`. On success derives `user_ns`/`core_ns` from `lang`. -/
def Connection.connect (opens : Nat → Except PoolError Client) (addr : String)
    (e : String → Bool) (lg : Lang) : Except PoolError Connection := do
  let ev ← opens 0
  let gd ← opens 1
  let cp ← opens 2
  .ok { eval := ev
        go_to_definition := gd
        completions := cp
        user_ns := match lg with
          | .Clojure => "user"
          | .ClojureScript => "cljs.user"
        core_ns := match lg with
          | .Clojure => "clojure.core"
          | .ClojureScript => "cljs.core"
        addr := addr
        expr := e
        lang := lg }

/-- `Connection::start_response_loops`, control-path effects only (the
spawned loops' per-response behaviour is modelled separately below): clone
the eval socket, write the bootstrap eval form through it — the clone shares
the session, so the write lands on the eval channel's log — then clone the
other two sockets for their loops. Any clone or write failure propagates. -/
def Connection.start_response_loops (conn : Connection) (key : String) :
    Except PoolError Connection := do
  let evc ← conn.eval.try_clone
  let evc ← evc.write (clojure.eval clojure.bootstrap conn.user_ns conn.lang)
  let _ ← conn.go_to_definition.try_clone
  let _ ← conn.completions.try_clone
  let _ := key
  .ok { conn with eval := evc }

/-- A channel of a `Connection`. -/
inductive Channel where
  | eval
  | definition
  | completions
deriving DecidableEq, Repr

/-- Observable effects of dropping a `Connection`: which channels received a
quit attempt, and the error lines logged. Dropping never fails. -/
structure DropResult where
  quits : List Channel
  logged : List String
deriving DecidableEq, Repr

/-- `impl Drop for Connection`: send quit on the eval channel; a failure is
logged, never raised. -/
def Connection.drop (c : Connection) : DropResult :=
  match c.eval.quit with
  | .ok _ => { quits := [Channel.eval], logged := [] }
  | .error (.ClientErr msg) =>
      { quits := [Channel.eval]
        logged := ["Failed to quit REPL cleanly: " ++ msg] }
  | .error _ => { quits := [Channel.eval], logged := [] }

/-- `struct Pool`: the key → `Connection` registry. The `HashMap` becomes an
association list; its iteration order stands in for the map's unspecified
iteration order. -/
structure Pool where
  conns : List (String × Connection)

/-- `HashMap::insert`: overwrite the entry for `k` if present, else add. -/
def insertConn (l : List (String × Connection)) (k : String) (v : Connection) :
    List (String × Connection) :=
  if l.any (fun p => p.1 == k) then
    l.map (fun p => if p.1 == k then (k, v) else p)
  else
    l ++ [(k, v)]

/-- `Pool::connect`: build the `Connection`, start its loops labelled with
the bracketed key, and only then insert it; any failure leaves the registry
untouched. Inserting over an existing key drops the old value, so its
teardown effects are returned alongside the new state. -/
def Pool.connect (pool : Pool) (key : String)
    (opens : Nat → Except PoolError Client) (addr : String)
    (e : String → Bool) (lg : Lang) :
    Pool × List DropResult × Except PoolError Unit :=
  match (Connection.connect opens addr e lg).bind
      (fun conn => conn.start_response_loops ("[" ++ key ++ "]")) with
  | .error err => (pool, [], .error err)
  | .ok conn =>
      ({ conns := insertConn pool.conns key conn },
       ((pool.conns.filter (fun p => p.1 == key)).map
         (fun p => Connection.drop p.2)),
       .ok ())

/-- `Pool::disconnect`: remove and drop the connection for `key`, failing
with `ConnectionMissing` when the key is absent. -/
def Pool.disconnect (pool : Pool) (key : String) :
    Pool × List DropResult × Except PoolError Unit :=
  if pool.conns.any (fun p => p.1 == key) then
    ({ conns := pool.conns.filter (fun p => !(p.1 == key)) },
     ((pool.conns.filter (fun p => p.1 == key)).map
       (fun p => Connection.drop p.2)),
     .ok ())
  else
    (pool, [], .error (.ConnectionMissing key))

/-- The body of `Pool::eval`'s `for (name, conn) in matches` loop over the
registry entries: each matching connection receives the generated eval
request on its eval channel and contributes its key; a write failure
propagates immediately, keeping the writes already performed. -/
def evalStep (conns : List (String × Connection)) (code : String)
    (ctx : Context) :
    List (String × Connection) × Except PoolError (List String) :=
  match conns with
  | [] => ([], .ok [])
  | (name, conn) :: rest =>
    if conn.expr ctx.path then
      match conn.eval.write
          (clojure.eval code (ctx.ns.getD conn.user_ns) conn.lang) with
      | .error err => ((name, conn) :: rest, .error err)
      | .ok c2 =>
        match evalStep rest code ctx with
        | (rest2, .ok names) =>
            ((name, { conn with eval := c2 }) :: rest2, .ok (name :: names))
        | (rest2, .error err) =>
            ((name, { conn with eval := c2 }) :: rest2, .error err)
    else
      match evalStep rest code ctx with
      | (rest2, r) => ((name, conn) :: rest2, r)

/-- `Pool::eval`: if no connection's `expr` matches `ctx.path`
(`matches.peek().is_none()`), fail with `NoMatchingConnections` and write
nothing; otherwise multicast through `evalStep` and return the matched
keys. -/
def Pool.eval (pool : Pool) (code : String) (ctx : Context) :
    Pool × Except PoolError (List String) :=
  if pool.conns.any (fun p => p.2.expr ctx.path) then
    let r := evalStep pool.conns code ctx
    (⟨r.1⟩, r.2)
  else
    (pool, .error (.NoMatchingConnections ctx.path))

/-- The `find`-then-write body of `Pool::go_to_definition`: the first entry
whose `expr` matches receives the definition-lookup request on its
definition channel; reaching the end of the registry means no match. -/
def goToDefStep (conns : List (String × Connection)) (name : String)
    (ctx : Context) :
    List (String × Connection) × Except PoolError Unit :=
  match conns with
  | [] => ([], .error (.NoMatchingConnections ctx.path))
  | (k, conn) :: rest =>
    if conn.expr ctx.path then
      match conn.go_to_definition.write
          (clojure.eval (clojure.definition name) (ctx.ns.getD conn.user_ns)
            conn.lang) with
      | .error err => ((k, conn) :: rest, .error err)
      | .ok c2 => ((k, { conn with go_to_definition := c2 }) :: rest, .ok ())
    else
      match goToDefStep rest name ctx with
      | (rest2, r) => ((k, conn) :: rest2, r)

/-- `Pool::go_to_definition`. -/
def Pool.go_to_definition (pool : Pool) (name : String) (ctx : Context) :
    Pool × Except PoolError Unit :=
  let r := goToDefStep pool.conns name ctx
  (⟨r.1⟩, r.2)

/-- The `find`-then-write body of `Pool::update_completions`: the first
matching entry receives the completion-listing request on its completion
channel; no match is not an error. -/
def updateCompletionsStep (conns : List (String × Connection))
    (ctx : Context) :
    List (String × Connection) × Except PoolError Unit :=
  match conns with
  | [] => ([], .ok ())
  | (k, conn) :: rest =>
    if conn.expr ctx.path then
      let nsv := ctx.ns.getD conn.user_ns
      match conn.completions.write
          (clojure.eval (clojure.completions nsv conn.core_ns) nsv
            conn.lang) with
      | .error err => ((k, conn) :: rest, .error err)
      | .ok c2 => ((k, { conn with completions := c2 }) :: rest, .ok ())
    else
      match updateCompletionsStep rest ctx with
      | (rest2, r) => ((k, conn) :: rest2, r)

/-- `Pool::update_completions`. -/
def Pool.update_completions (pool : Pool) (ctx : Context) :
    Pool × Except PoolError Unit :=
  let r := updateCompletionsStep pool.conns ctx
  (⟨r.1⟩, r.2)

/-- Modelled from the spec: `repl::Response`, the wire protocol's fixed
response taxonomy. -/
inductive Response where
  | Ret (msg : String) (ms : Nat)
  | Tap (msg : String) (ms : Nat)
  | Out (msg : String)
  | Err (msg : String)
deriving DecidableEq, Repr

/-- Modelled from the spec: a source location as produced by the external
`util::parse_location`; opaque to the pool. -/
structure Location where
  file : String
  line : Nat
  column : Nat
deriving DecidableEq, Repr

/-- An observable side effect of a response loop: a `Server`-handle call or
a process-level log line (the `error!` macro). -/
inductive ServerEvent where
  | goTo (loc : Location)
  | errLine (line : String)
  | procError (line : String)
deriving DecidableEq, Repr

/-- One iteration of the definition channel's response loop in
`Connection::start_response_loops`: `Ret` payloads are parsed as locations
and jumped to (a failed jump is logged through the server handle), the
`:unknown` sentinel produces one error line, other unparsable payloads
nothing; `Tap`/`Out` are ignored, `Err` goes to the process log, and a
transport error becomes an error line. The external location parser and the
outcome of `Server::go_to` are the parameters `parse` and `jump`. -/
def definitionLoopStep (parse : String → Option Location)
    (jump : Location → Except String Unit)
    (resp : Except String Response) : List ServerEvent :=
  match resp with
  | .ok (.Ret msg _) =>
    match parse msg with
    | some loc =>
      match jump loc with
      | .ok _ => [ServerEvent.goTo loc]
      | .error m =>
          [ServerEvent.goTo loc,
           ServerEvent.errLine ("Error while going to definition: " ++ m)]
    | none =>
      if msg == ":unknown" then [ServerEvent.errLine "Location unknown"]
      else []
  | .ok (.Err msg) =>
      [ServerEvent.procError ("Error message from go to location: " ++ msg)]
  | .ok (.Tap _ _) => []
  | .ok (.Out _) => []
  | .error msg =>
      [ServerEvent.errLine ("Error from definition connection: " ++ msg)]

/-- The connection reached by a successful eval-channel write: the request
for `code` in the context's namespace (or the connection's default) is
appended to the eval log. Used to state what `Pool.eval` does. -/
def evalWritten (conn : Connection) (code : String) (ctx : Context) :
    Connection :=
  { conn with eval :=
      { conn.eval with writes := conn.eval.writes ++
          [clojure.eval code (ctx.ns.getD conn.user_ns) conn.lang] } }

/-! ## Step lemmas shared by the claim theorems -/

theorem evalStep_all_ok (code : String) (ctx : Context) :
    ∀ conns : List (String × Connection),
      (∀ p ∈ conns, p.2.expr ctx.path = true → p.2.eval.writeOk = true) →
      evalStep conns code ctx =
        (conns.map (fun p =>
            if p.2.expr ctx.path then (p.1, evalWritten p.2 code ctx) else p),
         .ok ((conns.filter (fun p => p.2.expr ctx.path)).map Prod.fst)) := by
  intro conns
  induction conns with
  | nil => intro _; rfl
  | cons hd tl ih =>
    intro h
    obtain ⟨name, conn⟩ := hd
    have ih' := ih (fun p hp => h p (List.mem_cons_of_mem _ hp))
    by_cases hm : conn.expr ctx.path = true
    · have hw : conn.eval.writeOk = true := h _ (List.mem_cons_self _ _) hm
      simp only [evalStep, hm, if_true, Client.write, hw, ite_true, ih',
        List.map_cons, List.filter_cons, evalWritten]
    · simp only [evalStep, hm, if_false, ih', List.map_cons, List.filter_cons,
        Bool.eq_false_iff.mpr hm]
      simp [hm]

theorem goToDefStep_no_match (name : String) (ctx : Context) :
    ∀ conns : List (String × Connection),
      (∀ p ∈ conns, p.2.expr ctx.path = false) →
      goToDefStep conns name ctx =
        (conns, .error (.NoMatchingConnections ctx.path)) := by
  intro conns
  induction conns with
  | nil => intro _; rfl
  | cons hd tl ih =>
    intro h
    obtain ⟨k, conn⟩ := hd
    have hm : conn.expr ctx.path = false := h _ (List.mem_cons_self _ _)
    have ih' := ih (fun p hp => h p (List.mem_cons_of_mem _ hp))
    simp [goToDefStep, hm, ih']

theorem goToDefStep_first (name : String) (ctx : Context)
    (post : List (String × Connection)) (k : String) (conn : Connection)
    (hm : conn.expr ctx.path = true)
    (hw : conn.go_to_definition.writeOk = true) :
    ∀ pre : List (String × Connection),
      (∀ p ∈ pre, p.2.expr ctx.path = false) →
      goToDefStep (pre ++ (k, conn) :: post) name ctx =
        (pre ++ (k, { conn with go_to_definition :=
            { conn.go_to_definition with writes :=
                conn.go_to_definition.writes ++
                  [clojure.eval (clojure.definition name)
                    (ctx.ns.getD conn.user_ns) conn.lang] } }) :: post,
         .ok ()) := by
  intro pre
  induction pre with
  | nil =>
    intro _
    simp [goToDefStep, hm, Client.write, hw]
  | cons hd tl ih =>
    intro h
    obtain ⟨k2, conn2⟩ := hd
    have hm2 : conn2.expr ctx.path = false := h _ (List.mem_cons_self _ _)
    have ih' := ih (fun p hp => h p (List.mem_cons_of_mem _ hp))
    simp [goToDefStep, hm2, ih']

theorem updateCompletionsStep_no_match (ctx : Context) :
    ∀ conns : List (String × Connection),
      (∀ p ∈ conns, p.2.expr ctx.path = false) →
      updateCompletionsStep conns ctx = (conns, .ok ()) := by
  intro conns
  induction conns with
  | nil => intro _; rfl
  | cons hd tl ih =>
    intro h
    obtain ⟨k, conn⟩ := hd
    have hm : conn.expr ctx.path = false := h _ (List.mem_cons_self _ _)
    have ih' := ih (fun p hp => h p (List.mem_cons_of_mem _ hp))
    simp [updateCompletionsStep, hm, ih']

theorem updateCompletionsStep_first (ctx : Context)
    (post : List (String × Connection)) (k : String) (conn : Connection)
    (hm : conn.expr ctx.path = true)
    (hw : conn.completions.writeOk = true) :
    ∀ pre : List (String × Connection),
      (∀ p ∈ pre, p.2.expr ctx.path = false) →
      updateCompletionsStep (pre ++ (k, conn) :: post) ctx =
        (pre ++ (k, { conn with completions :=
            { conn.completions with writes :=
                conn.completions.writes ++
                  [clojure.eval
                    (clojure.completions (ctx.ns.getD conn.user_ns)
                      conn.core_ns)
                    (ctx.ns.getD conn.user_ns) conn.lang] } }) :: post,
         .ok ()) := by
  intro pre
  induction pre with
  | nil =>
    intro _
    simp [updateCompletionsStep, hm, Client.write, hw]
  | cons hd tl ih =>
    intro h
    obtain ⟨k2, conn2⟩ := hd
    have hm2 : conn2.expr ctx.path = false := h _ (List.mem_cons_self _ _)
    have ih' := ih (fun p hp => h p (List.mem_cons_of_mem _ hp))
    simp [updateCompletionsStep, hm2, ih']

theorem evalStep_write_fail (code : String) (ctx : Context)
    (post : List (String × Connection)) (k : String) (conn : Connection)
    (hm : conn.expr ctx.path = true)
    (hf : conn.eval.writeOk = false) :
    ∀ pre : List (String × Connection),
      (∀ p ∈ pre, p.2.expr ctx.path = true → p.2.eval.writeOk = true) →
      evalStep (pre ++ (k, conn) :: post) code ctx =
        (pre.map (fun p =>
            if p.2.expr ctx.path then (p.1, evalWritten p.2 code ctx) else p)
          ++ (k, conn) :: post,
         .error (.ClientErr conn.eval.writeErr)) := by
  intro pre
  induction pre with
  | nil =>
    intro _
    simp [evalStep, hm, Client.write, hf]
  | cons hd tl ih =>
    intro h
    obtain ⟨k2, conn2⟩ := hd
    have ih' := ih (fun p hp => h p (List.mem_cons_of_mem _ hp))
    by_cases hm2 : conn2.expr ctx.path = true
    · have hw2 : conn2.eval.writeOk = true := h _ (List.mem_cons_self _ _) hm2
      simp only [List.cons_append, evalStep, hm2, if_true, Client.write, hw2,
        ite_true, List.append_eq, ih', List.map_cons, evalWritten]
    · simp only [List.cons_append, evalStep, hm2, if_false, List.append_eq,
        ih', List.map_cons]
      simp [hm2]

/-! ## Concrete fixtures used by the witnesses -/

/-- A Clojure-language connection whose pattern matches exactly
`proj/core.clj`, all sockets healthy. -/
def connClj : Connection :=
  { eval := {}
    go_to_definition := {}
    completions := {}
    user_ns := "user"
    core_ns := "clojure.core"
    addr := "127.0.0.1:5678"
    expr := fun p => p == "proj/core.clj"
    lang := .Clojure }

/-- A ClojureScript-language connection matching the same path. -/
def connCljs : Connection :=
  { eval := {}
    go_to_definition := {}
    completions := {}
    user_ns := "cljs.user"
    core_ns := "cljs.core"
    addr := "127.0.0.1:5679"
    expr := fun p => p == "proj/core.clj"
    lang := .ClojureScript }

/-- A connection whose pattern matches nothing. -/
def connOther : Connection :=
  { eval := {}
    go_to_definition := {}
    completions := {}
    user_ns := "user"
    core_ns := "clojure.core"
    addr := "127.0.0.1:5680"
    expr := fun _ => false
    lang := .Clojure }

/-- A matching connection whose eval socket refuses writes. -/
def connBad : Connection :=
  { eval := { writeOk := false, writeErr := "broken pipe" }
    go_to_definition := {}
    completions := {}
    user_ns := "user"
    core_ns := "clojure.core"
    addr := "127.0.0.1:5681"
    expr := fun p => p == "proj/core.clj"
    lang := .Clojure }

/-- A context whose path the matching fixtures accept, no override. -/
def ctxClj : Context := { path := "proj/core.clj", ns := none }

/-- A context no fixture matches. -/
def ctxNone : Context := { path := "other/file.py", ns := none }

/-- The matching context with a namespace override. -/
def ctxOver : Context := { path := "proj/core.clj", ns := some "foo.bar" }

/-! ## Claim theorems -/

/-- C1: with at least one registered connection matching `ctx.path`,
`Pool.eval` writes the generated eval request to every matching connection
(multicast) and to no other, and returns exactly the matched keys. -/
theorem eval_multicast (pool : Pool) (code : String) (ctx : Context)
    (hmatch : pool.conns.any (fun p => p.2.expr ctx.path) = true)
    (hok : ∀ p ∈ pool.conns,
      p.2.expr ctx.path = true → p.2.eval.writeOk = true) :
    pool.eval code ctx =
      (⟨pool.conns.map (fun p =>
          if p.2.expr ctx.path then (p.1, evalWritten p.2 code ctx) else p)⟩,
       .ok ((pool.conns.filter (fun p => p.2.expr ctx.path)).map
         Prod.fst)) := by
  simp [Pool.eval, hmatch, evalStep_all_ok code ctx pool.conns hok]

/-- Witness for C1 on a three-entry pool with two matches. -/
theorem eval_multicast_witness :
    (Pool.mk [("a", connClj), ("b", connOther), ("c", connCljs)]).eval
        "(+ 1 2)" ctxClj =
      (⟨[("a", evalWritten connClj "(+ 1 2)" ctxClj), ("b", connOther),
         ("c", evalWritten connCljs "(+ 1 2)" ctxClj)]⟩,
       .ok ["a", "c"]) := by
  have h := eval_multicast
      ⟨[("a", connClj), ("b", connOther), ("c", connCljs)]⟩ "(+ 1 2)" ctxClj
      rfl (by decide)
  rw [h]
  rfl

/-- C3: with zero matching connections, `Pool.eval` writes nothing and
fails with `NoMatchingConnections` carrying the queried path. -/
theorem eval_no_match_fails (pool : Pool) (code : String) (ctx : Context)
    (h : ∀ p ∈ pool.conns, p.2.expr ctx.path = false) :
    pool.eval code ctx = (pool, .error (.NoMatchingConnections ctx.path)) := by
  have hany : pool.conns.any (fun p => p.2.expr ctx.path) = false := by
    rw [List.any_eq_false]
    intro p hp
    simp [h p hp]
  simp [Pool.eval, hany]

/-- Witness for C3. -/
theorem eval_no_match_fails_witness :
    (Pool.mk [("a", connClj)]).eval "(+ 1 2)" ctxNone =
      (⟨[("a", connClj)]⟩, .error (.NoMatchingConnections "other/file.py")) :=
  eval_no_match_fails ⟨[("a", connClj)]⟩ "(+ 1 2)" ctxNone (by decide)

/-- C5: with zero matching connections, `Pool.update_completions` succeeds
and performs no write, unlike `eval` and `go_to_definition`. -/
theorem update_completions_no_match_ok (pool : Pool) (ctx : Context)
    (h : ∀ p ∈ pool.conns, p.2.expr ctx.path = false) :
    pool.update_completions ctx = (pool, .ok ()) := by
  have hs := updateCompletionsStep_no_match ctx pool.conns h
  simp [Pool.update_completions, hs]

/-- Witness for C5. -/
theorem update_completions_no_match_ok_witness :
    (Pool.mk [("a", connClj)]).update_completions ctxNone =
      (⟨[("a", connClj)]⟩, .ok ()) :=
  update_completions_no_match_ok ⟨[("a", connClj)]⟩ ctxNone (by decide)

/-! ## Helper lemmas on the registry operations -/

theorem filter_keep_other (key : String) :
    ∀ pre post : List (String × Connection), ∀ conn : Connection,
      (∀ p ∈ pre, (p.1 == key) = false) →
      (∀ p ∈ post, (p.1 == key) = false) →
      (pre ++ (key, conn) :: post).filter (fun p => !(p.1 == key)) =
        pre ++ post := by
  intro pre post conn hpre hpost
  have e1 : pre.filter (fun p => !(p.1 == key)) = pre :=
    List.filter_eq_self.mpr (fun p hp => by simp [hpre p hp])
  have e2 : post.filter (fun p => !(p.1 == key)) = post :=
    List.filter_eq_self.mpr (fun p hp => by simp [hpost p hp])
  simp [List.filter_append, List.filter_cons, e1, e2]

theorem filter_at_key (key : String) :
    ∀ pre post : List (String × Connection), ∀ conn : Connection,
      (∀ p ∈ pre, (p.1 == key) = false) →
      (∀ p ∈ post, (p.1 == key) = false) →
      (pre ++ (key, conn) :: post).filter (fun p => p.1 == key) =
        [(key, conn)] := by
  intro pre post conn hpre hpost
  have e1 : pre.filter (fun p => p.1 == key) = [] := by
    rw [List.filter_eq_nil_iff]
    intro p hp
    simp [hpre p hp]
  have e2 : post.filter (fun p => p.1 == key) = [] := by
    rw [List.filter_eq_nil_iff]
    intro p hp
    simp [hpost p hp]
  simp [List.filter_append, List.filter_cons, e1, e2]

theorem any_key_of_present (key : String) (pre post : List (String × Connection))
    (conn : Connection) :
    (pre ++ (key, conn) :: post).any (fun p => p.1 == key) = true := by
  rw [List.any_eq_true]
  exact ⟨(key, conn), by simp, by simp⟩

theorem disconnect_absent (pool : Pool) (key : String)
    (h : ∀ p ∈ pool.conns, (p.1 == key) = false) :
    pool.disconnect key = (pool, [], .error (.ConnectionMissing key)) := by
  have hany : pool.conns.any (fun p => p.1 == key) = false := by
    rw [List.any_eq_false]
    intro p hp
    simp [h p hp]
  simp [Pool.disconnect, hany]

theorem disconnect_present (pre post : List (String × Connection))
    (key : String) (conn : Connection)
    (hpre : ∀ p ∈ pre, (p.1 == key) = false)
    (hpost : ∀ p ∈ post, (p.1 == key) = false) :
    (Pool.mk (pre ++ (key, conn) :: post)).disconnect key =
      (⟨pre ++ post⟩, [Connection.drop conn], .ok ()) := by
  have hany := any_key_of_present key pre post conn
  have hf1 := filter_keep_other key pre post conn hpre hpost
  have hf2 := filter_at_key key pre post conn hpre hpost
  simp only [Pool.disconnect, hany, if_true, hf1, hf2, List.map_cons,
    List.map_nil]

theorem pool_connect_fail (pool : Pool) (key : String)
    (opens : Nat → Except PoolError Client) (addr : String)
    (e : String → Bool) (lg : Lang) (err : PoolError)
    (h : (Connection.connect opens addr e lg).bind
        (fun conn => conn.start_response_loops ("[" ++ key ++ "]")) =
      .error err) :
    pool.connect key opens addr e lg = (pool, [], .error err) := by
  simp [Pool.connect, h]

theorem pool_connect_ok (pool : Pool) (key : String)
    (opens : Nat → Except PoolError Client) (addr : String)
    (e : String → Bool) (lg : Lang) (conn : Connection)
    (h : (Connection.connect opens addr e lg).bind
        (fun c => c.start_response_loops ("[" ++ key ++ "]")) = .ok conn) :
    pool.connect key opens addr e lg =
      ({ conns := insertConn pool.conns key conn },
       (pool.conns.filter (fun p => p.1 == key)).map
         (fun p => Connection.drop p.2),
       .ok ()) := by
  simp [Pool.connect, h]

theorem insertConn_mem_self (l : List (String × Connection)) (k : String)
    (v : Connection) : (k, v) ∈ insertConn l k v := by
  unfold insertConn
  by_cases hany : l.any (fun p => p.1 == k) = true
  · rw [if_pos hany]
    rw [List.any_eq_true] at hany
    obtain ⟨p, hp, hpk⟩ := hany
    rw [List.mem_map]
    exact ⟨p, hp, by simp [hpk]⟩
  · rw [if_neg hany]
    simp

/-- C4: `go_to_definition` and `update_completions` each write exactly one
request, to the first matching connection only; every other connection —
matching or not — is untouched; `go_to_definition` fails with
`NoMatchingConnections` when nothing matches. -/
theorem single_dispatch_routing (pre post : List (String × Connection))
    (k : String) (conn : Connection) (defname : String) (ctx : Context)
    (hpre : ∀ p ∈ pre, p.2.expr ctx.path = false)
    (hm : conn.expr ctx.path = true)
    (hg : conn.go_to_definition.writeOk = true)
    (hc : conn.completions.writeOk = true) :
    (Pool.mk (pre ++ (k, conn) :: post)).go_to_definition defname ctx =
      (⟨pre ++ (k, { conn with go_to_definition :=
          { conn.go_to_definition with writes :=
              conn.go_to_definition.writes ++
                [clojure.eval (clojure.definition defname)
                  (ctx.ns.getD conn.user_ns) conn.lang] } }) :: post⟩,
       .ok ()) ∧
    (Pool.mk (pre ++ (k, conn) :: post)).update_completions ctx =
      (⟨pre ++ (k, { conn with completions :=
          { conn.completions with writes :=
              conn.completions.writes ++
                [clojure.eval
                  (clojure.completions (ctx.ns.getD conn.user_ns)
                    conn.core_ns)
                  (ctx.ns.getD conn.user_ns) conn.lang] } }) :: post⟩,
       .ok ()) ∧
    (∀ pool2 : Pool, (∀ p ∈ pool2.conns, p.2.expr ctx.path = false) →
      pool2.go_to_definition defname ctx =
        (pool2, .error (.NoMatchingConnections ctx.path))) := by
  refine ⟨?_, ?_, ?_⟩
  · have hs := goToDefStep_first defname ctx post k conn hm hg pre hpre
    simp [Pool.go_to_definition, hs]
  · have hs := updateCompletionsStep_first ctx post k conn hm hc pre hpre
    simp [Pool.update_completions, hs]
  · intro pool2 h2
    have hs := goToDefStep_no_match defname ctx pool2.conns h2
    simp [Pool.go_to_definition, hs]

/-- Witness for C4 on a pool where two connections match: only the first
match is written to, the other match and the non-match stay untouched. -/
theorem single_dispatch_routing_witness :
    ((Pool.mk [("b", connOther), ("a", connClj),
        ("c", connCljs)]).go_to_definition "my-fn" ctxClj).2 = .ok () ∧
    (Pool.mk [("b", connOther), ("a", connClj),
        ("c", connCljs)]).go_to_definition "my-fn" ctxClj =
      (⟨[("b", connOther),
         ("a", { connClj with go_to_definition :=
            { connClj.go_to_definition with writes :=
                [clojure.eval (clojure.definition "my-fn") "user"
                  .Clojure] } }),
         ("c", connCljs)]⟩, .ok ()) ∧
    ((Pool.mk [("b", connOther), ("a", connClj),
        ("c", connCljs)]).update_completions ctxClj).2 = .ok () ∧
    ((Pool.mk [("b", connOther)]).go_to_definition "my-fn" ctxClj).2 =
      .error (.NoMatchingConnections "proj/core.clj") := by
  have h := single_dispatch_routing [("b", connOther)] [("c", connCljs)] "a"
      connClj "my-fn" ctxClj (by decide) rfl rfl rfl
  have h1 := h.1
  have h2 := h.2.1
  have h3 := h.2.2 ⟨[("b", connOther)]⟩ (by decide)
  rw [List.singleton_append] at h1 h2
  refine ⟨?_, ?_, ?_, ?_⟩
  · rw [h1]
  · rw [h1]
    rfl
  · rw [h2]
  · rw [h3]
    rfl

/-- C7: `disconnect` on an absent key fails with `ConnectionMissing` and
leaves the registry unchanged; on a present key it removes exactly that
entry, triggers its teardown, and returns `Ok`. -/
theorem disconnect_spec :
    (∀ (pool : Pool) (key : String),
      (∀ p ∈ pool.conns, (p.1 == key) = false) →
      pool.disconnect key = (pool, [], .error (.ConnectionMissing key))) ∧
    (∀ (pre post : List (String × Connection)) (key : String)
        (conn : Connection),
      (∀ p ∈ pre, (p.1 == key) = false) →
      (∀ p ∈ post, (p.1 == key) = false) →
      (Pool.mk (pre ++ (key, conn) :: post)).disconnect key =
        (⟨pre ++ post⟩, [Connection.drop conn], .ok ())) :=
  ⟨fun pool key h => disconnect_absent pool key h,
   fun pre post key conn hpre hpost =>
     disconnect_present pre post key conn hpre hpost⟩

/-- Witness for C7: absent key fails and changes nothing, present key is
removed with a quit attempt. -/
theorem disconnect_spec_witness :
    (Pool.mk [("a", connClj)]).disconnect "zzz" =
      (⟨[("a", connClj)]⟩, [], .error (.ConnectionMissing "zzz")) ∧
    (Pool.mk [("a", connClj), ("b", connCljs)]).disconnect "a" =
      (⟨[("b", connCljs)]⟩, [Connection.drop connClj], .ok ()) := by
  constructor
  · exact disconnect_spec.1 ⟨[("a", connClj)]⟩ "zzz" (by decide)
  · exact disconnect_spec.2 [] [("b", connCljs)] "a" connClj (by decide)
      (by decide)

theorem Connection.connect_fail_of_open_fail
    (opens : Nat → Except PoolError Client) (addr : String)
    (e : String → Bool) (lg : Lang) (err : PoolError)
    (h : opens 0 = .error err ∨
      (∃ c0, opens 0 = .ok c0 ∧ opens 1 = .error err) ∨
      (∃ c0 c1, opens 0 = .ok c0 ∧ opens 1 = .ok c1 ∧
        opens 2 = .error err)) :
    Connection.connect opens addr e lg = .error err := by
  rcases h with h0 | ⟨c0, h0, h1⟩ | ⟨c0, c1, h0, h1, h2⟩
  · simp [Connection.connect, h0, Bind.bind, Except.bind]
  · simp [Connection.connect, h0, h1, Bind.bind, Except.bind]
  · simp [Connection.connect, h0, h1, h2, Bind.bind, Except.bind]

/-- C2: `Pool.connect` is all-or-nothing — any failure while opening the
three sockets or starting the response loops returns that error with the
registry unchanged; only full success inserts (or overwrites) the key, and
then the key is registered. -/
theorem connect_all_or_nothing (pool : Pool) (key : String)
    (opens : Nat → Except PoolError Client) (addr : String)
    (e : String → Bool) (lg : Lang) :
    (∀ err : PoolError,
      (Connection.connect opens addr e lg).bind
          (fun conn => conn.start_response_loops ("[" ++ key ++ "]")) =
        .error err →
      pool.connect key opens addr e lg = (pool, [], .error err)) ∧
    (∀ err : PoolError,
      (opens 0 = .error err ∨
        (∃ c0, opens 0 = .ok c0 ∧ opens 1 = .error err) ∨
        (∃ c0 c1, opens 0 = .ok c0 ∧ opens 1 = .ok c1 ∧
          opens 2 = .error err)) →
      pool.connect key opens addr e lg = (pool, [], .error err)) ∧
    (∀ conn : Connection,
      (Connection.connect opens addr e lg).bind
          (fun c => c.start_response_loops ("[" ++ key ++ "]")) = .ok conn →
      pool.connect key opens addr e lg =
        ({ conns := insertConn pool.conns key conn },
         (pool.conns.filter (fun p => p.1 == key)).map
           (fun p => Connection.drop p.2),
         .ok ()) ∧
      (key, conn) ∈ insertConn pool.conns key conn) := by
  refine ⟨?_, ?_, ?_⟩
  · intro err h
    exact pool_connect_fail pool key opens addr e lg err h
  · intro err h
    have hc := Connection.connect_fail_of_open_fail opens addr e lg err h
    exact pool_connect_fail pool key opens addr e lg err
      (by simp [hc, Except.bind])
  · intro conn h
    exact ⟨pool_connect_ok pool key opens addr e lg conn h,
      insertConn_mem_self pool.conns key conn⟩

/-- An environment in which every socket open succeeds. -/
def opensOk : Nat → Except PoolError Client := fun _ => .ok {}

/-- An environment in which the second socket open is refused. -/
def opensFail1 : Nat → Except PoolError Client := fun n =>
  if n == 1 then .error (.ClientErr "connection refused") else .ok {}

/-- The connection a fully successful `connect` + `start_response_loops`
produces from `opensOk` for path pattern `fun _ => true` and Clojure. -/
def connFresh : Connection :=
  { eval := { writes := [clojure.eval clojure.bootstrap "user" .Clojure] }
    go_to_definition := {}
    completions := {}
    user_ns := "user"
    core_ns := "clojure.core"
    addr := "127.0.0.1:9000"
    expr := fun _ => true
    lang := .Clojure }

/-- Witness for C2: a failed second socket open leaves the pool unchanged
with the error surfaced; a fully successful connect registers the key. -/
theorem connect_all_or_nothing_witness :
    (Pool.mk [("a", connClj)]).connect "b" opensFail1 "127.0.0.1:9000"
        (fun _ => true) .Clojure =
      (⟨[("a", connClj)]⟩, [], .error (.ClientErr "connection refused")) ∧
    (Pool.mk [("a", connClj)]).connect "b" opensOk "127.0.0.1:9000"
        (fun _ => true) .Clojure =
      (⟨[("a", connClj), ("b", connFresh)]⟩, [], .ok ()) := by
  constructor
  · exact (connect_all_or_nothing ⟨[("a", connClj)]⟩ "b" opensFail1
      "127.0.0.1:9000" (fun _ => true) .Clojure).2.1
      (.ClientErr "connection refused")
      (Or.inr (Or.inl ⟨{}, rfl, rfl⟩))
  · have h := ((connect_all_or_nothing ⟨[("a", connClj)]⟩ "b" opensOk
      "127.0.0.1:9000" (fun _ => true) .Clojure).2.2 connFresh rfl).1
    rw [h]
    rfl

/-- A connection whose eval socket's quit fails. -/
def connQuitBad : Connection :=
  { eval := { quitOk := false, quitErr := "eof" }
    go_to_definition := {}
    completions := {}
    user_ns := "user"
    core_ns := "clojure.core"
    addr := "127.0.0.1:5682"
    expr := fun p => p == "proj/core.clj"
    lang := .Clojure }

/-- C9: every removal of a `Connection` from the registry — explicit
disconnect or replacement by a later connect — tears it down with exactly
one quit, on the eval channel only; a quit failure is logged and never
surfaced (teardown is total). -/
theorem teardown_quit_once :
    (∀ c : Connection, (Connection.drop c).quits = [Channel.eval]) ∧
    (∀ c : Connection, c.eval.quitOk = true →
      Connection.drop c = { quits := [Channel.eval], logged := [] }) ∧
    (∀ c : Connection, c.eval.quitOk = false →
      Connection.drop c =
        { quits := [Channel.eval]
          logged := ["Failed to quit REPL cleanly: " ++ c.eval.quitErr] }) ∧
    (∀ (pre post : List (String × Connection)) (key : String)
        (conn : Connection),
      (∀ p ∈ pre, (p.1 == key) = false) →
      (∀ p ∈ post, (p.1 == key) = false) →
      ((Pool.mk (pre ++ (key, conn) :: post)).disconnect key).2.1 =
        [Connection.drop conn]) ∧
    (∀ (pre post : List (String × Connection)) (key : String)
        (oldc conn2 : Connection) (opens : Nat → Except PoolError Client)
        (addr : String) (e : String → Bool) (lg : Lang),
      (∀ p ∈ pre, (p.1 == key) = false) →
      (∀ p ∈ post, (p.1 == key) = false) →
      (Connection.connect opens addr e lg).bind
          (fun c => c.start_response_loops ("[" ++ key ++ "]")) =
        .ok conn2 →
      ((Pool.mk (pre ++ (key, oldc) :: post)).connect key opens addr e
        lg).2.1 = [Connection.drop oldc]) := by
  refine ⟨?_, ?_, ?_, ?_, ?_⟩
  · intro c
    by_cases hq : c.eval.quitOk = true <;>
      simp [Connection.drop, Client.quit, hq]
  · intro c hq
    simp [Connection.drop, Client.quit, hq]
  · intro c hq
    simp [Connection.drop, Client.quit, hq]
  · intro pre post key conn h1 h2
    rw [disconnect_present pre post key conn h1 h2]
  · intro pre post key oldc conn2 opens addr e lg h1 h2 hok
    rw [pool_connect_ok ⟨pre ++ (key, oldc) :: post⟩ key opens addr e lg
      conn2 hok]
    show ((pre ++ (key, oldc) :: post).filter (fun p => p.1 == key)).map
        (fun p => Connection.drop p.2) = [Connection.drop oldc]
    rw [filter_at_key key pre post oldc h1 h2]
    rfl

/-- Witness for C9: teardown effects of a healthy and of a failing quit,
and the two removal paths each performing exactly that one quit attempt. -/
theorem teardown_quit_once_witness :
    Connection.drop connClj = { quits := [Channel.eval], logged := [] } ∧
    Connection.drop connQuitBad =
      { quits := [Channel.eval]
        logged := ["Failed to quit REPL cleanly: eof"] } ∧
    ((Pool.mk [("a", connQuitBad)]).disconnect "a").2.1 =
      [Connection.drop connQuitBad] ∧
    ((Pool.mk [("a", connClj)]).connect "a" opensOk "127.0.0.1:9000"
      (fun _ => true) .Clojure).2.1 = [Connection.drop connClj] := by
  refine ⟨?_, ?_, ?_, ?_⟩
  · exact teardown_quit_once.2.1 connClj rfl
  · exact teardown_quit_once.2.2.1 connQuitBad rfl
  · exact teardown_quit_once.2.2.2.1 [] [] "a" connQuitBad (by decide)
      (by decide)
  · exact teardown_quit_once.2.2.2.2 [] [] "a" connClj connFresh opensOk
      "127.0.0.1:9000" (fun _ => true) .Clojure (by decide) (by decide) rfl

/-- C8: on the definition channel, a `Ret` whose payload parses as a
location triggers exactly one jump (a failed jump adding one logged error
line); the `:unknown` sentinel yields exactly one error line; any other
unparsable payload yields no observable effect; `Tap` and `Out` are
ignored. -/
theorem definition_loop_ret (parse : String → Option Location)
    (jump : Location → Except String Unit) (msg : String) (ms : Nat) :
    (∀ loc, parse msg = some loc → jump loc = .ok () →
      definitionLoopStep parse jump (.ok (.Ret msg ms)) =
        [ServerEvent.goTo loc]) ∧
    (∀ loc m, parse msg = some loc → jump loc = .error m →
      definitionLoopStep parse jump (.ok (.Ret msg ms)) =
        [ServerEvent.goTo loc,
         ServerEvent.errLine ("Error while going to definition: " ++ m)]) ∧
    (parse msg = none → msg = ":unknown" →
      definitionLoopStep parse jump (.ok (.Ret msg ms)) =
        [ServerEvent.errLine "Location unknown"]) ∧
    (parse msg = none → ¬msg = ":unknown" →
      definitionLoopStep parse jump (.ok (.Ret msg ms)) = []) ∧
    (∀ t tms, definitionLoopStep parse jump (.ok (.Tap t tms)) = []) ∧
    (∀ t, definitionLoopStep parse jump (.ok (.Out t)) = []) := by
  refine ⟨?_, ?_, ?_, ?_, ?_, ?_⟩
  · intro loc hp hj
    simp [definitionLoopStep, hp, hj]
  · intro loc m hp hj
    simp [definitionLoopStep, hp, hj]
  · intro hp hu
    subst hu
    simp [definitionLoopStep, hp]
  · intro hp hu
    simp [definitionLoopStep, hp, hu]
  · intro t tms
    rfl
  · intro t
    rfl

/-- An external location parser recognising one fixed payload. -/
def parseFoo : String → Option Location := fun s =>
  if s == "src/foo.clj:12:3" then
    some { file := "src/foo.clj", line := 12, column := 3 }
  else none

/-- A server handle whose jump succeeds. -/
def jumpOk : Location → Except String Unit := fun _ => .ok ()

/-- A server handle whose jump fails. -/
def jumpFail : Location → Except String Unit := fun _ =>
  .error "no such file"

/-- Witness for C8 over the fixed parser: parsed payload jumps, failed jump
logs, sentinel logs once, garbage does nothing, `Tap` ignored. -/
theorem definition_loop_ret_witness :
    definitionLoopStep parseFoo jumpOk (.ok (.Ret "src/foo.clj:12:3" 5)) =
      [ServerEvent.goTo { file := "src/foo.clj", line := 12, column := 3 }] ∧
    definitionLoopStep parseFoo jumpFail (.ok (.Ret "src/foo.clj:12:3" 5)) =
      [ServerEvent.goTo { file := "src/foo.clj", line := 12, column := 3 },
       ServerEvent.errLine "Error while going to definition: no such file"] ∧
    definitionLoopStep parseFoo jumpOk (.ok (.Ret ":unknown" 7)) =
      [ServerEvent.errLine "Location unknown"] ∧
    definitionLoopStep parseFoo jumpOk (.ok (.Ret "#object[garbage]" 7)) =
      [] ∧
    definitionLoopStep parseFoo jumpOk (.ok (.Tap "42" 1)) = [] := by
  refine ⟨?_, ?_, ?_, ?_, ?_⟩
  · exact (definition_loop_ret parseFoo jumpOk "src/foo.clj:12:3" 5).1 _
      rfl rfl
  · exact (definition_loop_ret parseFoo jumpFail "src/foo.clj:12:3" 5).2.1 _
      "no such file" rfl rfl
  · exact (definition_loop_ret parseFoo jumpOk ":unknown" 7).2.2.1 rfl rfl
  · exact (definition_loop_ret parseFoo jumpOk "#object[garbage]" 7).2.2.2.1
      rfl (by decide)
  · exact (definition_loop_ret parseFoo jumpOk "42" 1).2.2.2.2.1 "42" 1

theorem map_fst_eval_map (code : String) (ctx : Context) :
    ∀ l : List (String × Connection),
      (l.map (fun p =>
        if p.2.expr ctx.path then (p.1, evalWritten p.2 code ctx)
        else p)).map Prod.fst = l.map Prod.fst := by
  intro l
  induction l with
  | nil => rfl
  | cons hd tl ih =>
    by_cases hm : hd.2.expr ctx.path = true <;> simp [hm, ih]

/-- C10: the eval multicast is not atomic over write failures — when the
write to a matched connection fails, `eval` surfaces that write error
instead of the key list; connections visited earlier keep their write, the
failing one and everything after it receive none, and the registry's keys
are unchanged. -/
theorem eval_partial_write_failure (pre post : List (String × Connection))
    (k : String) (conn : Connection) (code : String) (ctx : Context)
    (hok : ∀ p ∈ pre, p.2.expr ctx.path = true → p.2.eval.writeOk = true)
    (hm : conn.expr ctx.path = true)
    (hf : conn.eval.writeOk = false) :
    (Pool.mk (pre ++ (k, conn) :: post)).eval code ctx =
      (⟨pre.map (fun p =>
          if p.2.expr ctx.path then (p.1, evalWritten p.2 code ctx) else p)
        ++ (k, conn) :: post⟩,
       .error (.ClientErr conn.eval.writeErr)) ∧
    ((Pool.mk (pre ++ (k, conn) :: post)).eval code ctx).1.conns.map
        Prod.fst = (pre ++ (k, conn) :: post).map Prod.fst := by
  have hany : (pre ++ (k, conn) :: post).any
      (fun p => p.2.expr ctx.path) = true := by
    rw [List.any_eq_true]
    exact ⟨(k, conn), by simp, hm⟩
  have hstep := evalStep_write_fail code ctx post k conn hm hf pre hok
  have hmain : (Pool.mk (pre ++ (k, conn) :: post)).eval code ctx =
      (⟨pre.map (fun p =>
          if p.2.expr ctx.path then (p.1, evalWritten p.2 code ctx) else p)
        ++ (k, conn) :: post⟩,
       .error (.ClientErr conn.eval.writeErr)) := by
    simp [Pool.eval, hany, hstep]
  refine ⟨hmain, ?_⟩
  rw [hmain]
  simp [List.map_append, map_fst_eval_map code ctx pre]

/-- Witness for C10: the first matched connection keeps its write, the
second (failing) one gets none, and the write error is surfaced. -/
theorem eval_partial_write_failure_witness :
    (Pool.mk [("a", connClj), ("b", connBad)]).eval "(x)" ctxClj =
      (⟨[("a", evalWritten connClj "(x)" ctxClj), ("b", connBad)]⟩,
       .error (.ClientErr "broken pipe")) := by
  have h := (eval_partial_write_failure [("a", connClj)] [] "b" connBad
      "(x)" ctxClj (by decide) rfl rfl).1
  rw [List.singleton_append] at h
  rw [h]
  rfl

theorem Connection.connect_fields (opens : Nat → Except PoolError Client)
    (addr : String) (e : String → Bool) (lg : Lang) (conn0 : Connection)
    (h : Connection.connect opens addr e lg = .ok conn0) :
    conn0.user_ns = (match lg with
      | .Clojure => "user"
      | .ClojureScript => "cljs.user") ∧
    conn0.core_ns = (match lg with
      | .Clojure => "clojure.core"
      | .ClojureScript => "cljs.core") := by
  cases h0 : opens 0 with
  | error err => simp [Connection.connect, h0, Bind.bind, Except.bind] at h
  | ok c0 =>
    cases h1 : opens 1 with
    | error err =>
      simp [Connection.connect, h0, h1, Bind.bind, Except.bind] at h
    | ok c1 =>
      cases h2 : opens 2 with
      | error err =>
        simp [Connection.connect, h0, h1, h2, Bind.bind, Except.bind] at h
      | ok c2 =>
        simp [Connection.connect, h0, h1, h2, Bind.bind, Except.bind] at h
        subst h
        cases lg <;> exact ⟨rfl, rfl⟩

/-- C6: every request the three operations issue carries the namespace
`ctx.ns` when present and the target connection's `user_ns` otherwise; the
override is applied uniformly across the multicast set; and a connection
built by `Connection.connect` derives `user_ns`/`core_ns` from its
language, `"user"`/`"clojure.core"` for Clojure and
`"cljs.user"`/`"cljs.core"` for ClojureScript. -/
theorem namespace_selection (opens : Nat → Except PoolError Client)
    (addr : String) (e : String → Bool) (lg : Lang) (conn0 : Connection)
    (hconn : Connection.connect opens addr e lg = .ok conn0)
    (pool : Pool) (code defname : String) (ctx : Context)
    (hmatch : pool.conns.any (fun p => p.2.expr ctx.path) = true)
    (hok : ∀ p ∈ pool.conns,
      p.2.expr ctx.path = true → p.2.eval.writeOk = true)
    (pre post : List (String × Connection)) (k : String) (conn : Connection)
    (hpre : ∀ p ∈ pre, p.2.expr ctx.path = false)
    (hm : conn.expr ctx.path = true)
    (hg : conn.go_to_definition.writeOk = true)
    (hc : conn.completions.writeOk = true) :
    (conn0.user_ns = match lg with
      | .Clojure => "user"
      | .ClojureScript => "cljs.user") ∧
    (conn0.core_ns = match lg with
      | .Clojure => "clojure.core"
      | .ClojureScript => "cljs.core") ∧
    (pool.eval code ctx).1.conns =
      pool.conns.map (fun p =>
        if p.2.expr ctx.path then
          (p.1, { p.2 with eval := { p.2.eval with writes :=
              p.2.eval.writes ++
                [{ code := code, ns := ctx.ns.getD p.2.user_ns,
                   lang := p.2.lang }] } })
        else p) ∧
    (∀ s, ctx.ns = some s →
      (pool.eval code ctx).1.conns =
        pool.conns.map (fun p =>
          if p.2.expr ctx.path then
            (p.1, { p.2 with eval := { p.2.eval with writes :=
                p.2.eval.writes ++
                  [{ code := code, ns := s, lang := p.2.lang }] } })
          else p)) ∧
    ((Pool.mk (pre ++ (k, conn) :: post)).go_to_definition defname
        ctx).1.conns =
      pre ++ (k, { conn with go_to_definition :=
          { conn.go_to_definition with writes :=
              conn.go_to_definition.writes ++
                [{ code := clojure.definition defname,
                   ns := ctx.ns.getD conn.user_ns,
                   lang := conn.lang }] } }) :: post ∧
    ((Pool.mk (pre ++ (k, conn) :: post)).update_completions ctx).1.conns =
      pre ++ (k, { conn with completions :=
          { conn.completions with writes :=
              conn.completions.writes ++
                [{ code := clojure.completions (ctx.ns.getD conn.user_ns)
                     conn.core_ns,
                   ns := ctx.ns.getD conn.user_ns,
                   lang := conn.lang }] } }) :: post := by
  have hfields := Connection.connect_fields opens addr e lg conn0 hconn
  have he := evalStep_all_ok code ctx pool.conns hok
  have hev1 : (pool.eval code ctx).1.conns =
      pool.conns.map (fun p =>
        if p.2.expr ctx.path then (p.1, evalWritten p.2 code ctx) else p) :=
    by simp [Pool.eval, hmatch, he]
  refine ⟨hfields.1, hfields.2, ?_, ?_, ?_, ?_⟩
  · rw [hev1]
    rfl
  · intro s hs
    rw [hev1]
    exact List.map_congr_left
      (fun p _ => by simp [evalWritten, clojure.eval, hs])
  · have hs := goToDefStep_first defname ctx post k conn hm hg pre hpre
    have hd : ((Pool.mk (pre ++ (k, conn) :: post)).go_to_definition defname
        ctx).1.conns =
        pre ++ (k, { conn with go_to_definition :=
            { conn.go_to_definition with writes :=
                conn.go_to_definition.writes ++
                  [clojure.eval (clojure.definition defname)
                    (ctx.ns.getD conn.user_ns) conn.lang] } }) :: post := by
      simp [Pool.go_to_definition, hs]
    rw [hd]
    rfl
  · have hs := updateCompletionsStep_first ctx post k conn hm hc pre hpre
    have hd : ((Pool.mk (pre ++ (k, conn) :: post)).update_completions
        ctx).1.conns =
        pre ++ (k, { conn with completions :=
            { conn.completions with writes :=
                conn.completions.writes ++
                  [clojure.eval
                    (clojure.completions (ctx.ns.getD conn.user_ns)
                      conn.core_ns)
                    (ctx.ns.getD conn.user_ns) conn.lang] } }) :: post := by
      simp [Pool.update_completions, hs]
    rw [hd]
    rfl

/-- The connection a successful three-socket open against `opensOk`
produces for the ClojureScript language. -/
def connCs0 : Connection :=
  { eval := {}
    go_to_definition := {}
    completions := {}
    user_ns := "cljs.user"
    core_ns := "cljs.core"
    addr := "127.0.0.1:9001"
    expr := fun _ => true
    lang := .ClojureScript }

/-- Witness for C6: ClojureScript derivation of the namespaces, and the
`Some` override `"foo.bar"` reaching the generated eval and definition
requests. -/
theorem namespace_selection_witness :
    connCs0.user_ns = "cljs.user" ∧ connCs0.core_ns = "cljs.core" ∧
    ((Pool.mk [("a", connClj)]).eval "(x)" ctxOver).1.conns =
      [("a", { connClj with eval := { connClj.eval with writes :=
          [{ code := "(x)", ns := "foo.bar", lang := .Clojure }] } })] ∧
    ((Pool.mk [("a", connClj)]).go_to_definition "f" ctxOver).1.conns =
      [("a", { connClj with go_to_definition :=
          { connClj.go_to_definition with writes :=
              [{ code := clojure.definition "f", ns := "foo.bar",
                 lang := .Clojure }] } })] := by
  have h := namespace_selection opensOk "127.0.0.1:9001" (fun _ => true)
      .ClojureScript connCs0 rfl ⟨[("a", connClj)]⟩ "(x)" "f" ctxOver rfl
      (by decide) [] [] "a" connClj (by decide) rfl rfl rfl
  have hg := h.2.2.2.2.1
  rw [List.nil_append] at hg
  refine ⟨h.1, h.2.1, ?_, ?_⟩
  · rw [h.2.2.2.1 "foo.bar" rfl]
    rfl
  · rw [hg]
    rfl
